import Mathlib

/-!
Verification of the USD ↔ Draco attribute translation layer
(src/pxr/usd/plugin/usdDraco/exportAttribute.h, importAttribute.h).

Shallow embedding conventions:
* `VtArray`-style containers and `std::vector` become `List`.
* Machine sizes (`size_t`) become `Nat`; `int` becomes `Int`.
* Non-owning pointers into the Draco mesh become `Option` values: on the
  export side the created attribute is referred to by its id in the mesh
  (the source holds a raw pointer into the mesh's attribute storage), on
  the import side the located attribute is read-only so we store a copy.
* Operations whose source performs an unchecked access that can be a
  null-pointer dereference or an out-of-bounds access return `Option`;
  `none` models the undefined behavior of the C++ at that point.
  Guard checks present in the source are translated as written.
* The Draco codec mesh (a third-party black box for this repository) is
  modelled from its interface as used by the source: flat point attributes
  with a value array and a point-to-value map, attribute lookup by semantic
  type or by string metadata entry, and triangular faces.
-/

namespace UsdDraco

/-- Semantic attribute types of the codec (draco::GeometryAttribute::Type
as used by the translation layer). -/
inductive AttributeType where
  | position
  | normal
  | texCoord
  | generic
deriving DecidableEq

/-- Element data types of codec attribute components (draco::DataType as
used by the translation layer). -/
inductive DataType where
  | int32
  | float32
deriving DecidableEq

/-- Byte width of one component (draco::DataTypeLength). -/
def DataTypeLength : DataType → Nat
  | DataType.int32 => 4
  | DataType.float32 => 4

/-- Primvar interpolation tokens (UsdGeomTokens) compared by the source. -/
inductive Interpolation where
  | constant
  | uniform
  | vertex
  | faceVarying
deriving DecidableEq

/-- Modelled from the spec: the reserved metadata key constant
`UsdDracoAttributeDescriptor::METADATA_NAME_KEY` lives in
attributeDescriptor.h, which is not among the provided sources; the spec
describes it as a fixed string constant used exclusively to tag codec
attributes with a disambiguating name.  Its concrete spelling is
irrelevant to every claim (only equality with itself is used). -/
def METADATA_NAME_KEY : String := "name"

/-- Modelled from the spec: `UsdDracoAttributeDescriptor` is defined in
attributeDescriptor.h (not among the provided sources); the spec and the
uses in exportAttribute.h / importAttribute.h fix its fields: codec
attribute type, scene attribute name, component count, element data type,
primvar flag, scene value-type tag, and optional metadata name. -/
structure UsdDracoAttributeDescriptor where
  attributeType : AttributeType
  name : String
  numComponents : Nat
  dataType : DataType
  isPrimvar : Bool
  valueType : String
  metadataName : String
deriving DecidableEq

/-- Draco codec point attribute: a value array indexed by
AttributeValueIndex plus a per-point map from PointIndex to
AttributeValueIndex.  A map entry that was never set (draco's invalid
index) is `none`. -/
structure PointAttribute (V : Type) where
  attributeType : AttributeType
  numComponents : Nat
  dataType : DataType
  byteStride : Nat
  values : List V
  pointMap : Nat → Option Nat

/-- Number of attribute values (draco::PointAttribute::size). -/
def PointAttribute.size {V : Type} (pa : PointAttribute V) : Nat :=
  pa.values.length

/-- Value lookup by attribute-value index (draco::PointAttribute::GetValue);
`none` models an out-of-bounds read. -/
def PointAttribute.GetValue {V : Type} (pa : PointAttribute V) (avi : Nat) :
    Option V :=
  pa.values[avi]?

/-- Value lookup through the point map
(draco::PointAttribute::GetMappedValue); `none` models an invalid map entry
or an out-of-bounds read. -/
def PointAttribute.GetMappedValue {V : Type} (pa : PointAttribute V)
    (pi : Nat) : Option V := do
  let avi ← pa.pointMap pi
  pa.values[avi]?

/-- Point-map update (draco::PointAttribute::SetPointMapEntry). -/
def PointAttribute.SetPointMapEntry {V : Type} (pa : PointAttribute V)
    (pointIndex entryIndex : Nat) : PointAttribute V :=
  { pa with pointMap :=
      fun q => if q = pointIndex then some entryIndex else pa.pointMap q }

/-- Draco codec mesh as consumed/produced by the translation layer:
attributes in creation order (ids are list positions), attribute metadata
records in the order they were added, and triangular faces given by three
point indices. -/
structure Mesh (V : Type) where
  attributes : List (PointAttribute V)
  attributeMetadata : List (Nat × List (String × String))
  faces : List (Nat × Nat × Nat)

/-- Attribute id of the first attribute of a semantic type, or -1
(draco::PointCloud::GetNamedAttributeId). -/
def Mesh.GetNamedAttributeId {V : Type} (m : Mesh V) (t : AttributeType) :
    Int :=
  match m.attributes.findIdx? (fun pa => pa.attributeType == t) with
  | some i => Int.ofNat i
  | none => -1

/-- Attribute id of the first attribute whose metadata holds the given
string entry, or -1 (draco::Mesh::GetAttributeIdByMetadataEntry). -/
def Mesh.GetAttributeIdByMetadataEntry {V : Type} (m : Mesh V)
    (key value : String) : Int :=
  match m.attributeMetadata.find?
      (fun e => e.2.lookup key == some value) with
  | some e => Int.ofNat e.1
  | none => -1

/-- Attribute access by id (draco::PointCloud::attribute); the source call
is unchecked, `none` models an invalid id. -/
def Mesh.attribute {V : Type} (m : Mesh V) (attrId : Int) :
    Option (PointAttribute V) :=
  m.attributes[attrId.toNat]?

/-- Replace the attribute stored under an id, leaving the mesh unchanged on
a dangling id (the source mutates the attribute through a raw pointer that
is always valid at its call sites). -/
def Mesh.modifyAttribute {V : Type} (m : Mesh V) (attrId : Nat)
    (f : PointAttribute V → PointAttribute V) : Mesh V :=
  match m.attributes[attrId]? with
  | none => m
  | some pa => { m with attributes := m.attributes.set attrId (f pa) }

/-- Three corners of one triangular face, in corner order. -/
def faceCorners (f : Nat × Nat × Nat) : List Nat :=
  [f.1, f.2.1, f.2.2]

/-- Corners of a list of faces, in face-then-corner order. -/
def cornerList : List (Nat × Nat × Nat) → List Nat
  | [] => []
  | f :: rest => faceCorners f ++ cornerList rest

/-- Corners walked by the nested face/corner loops of
PopulateValuesWithOrder, flattened in face-then-corner order; `none`
models a face access beyond the mesh (dracoMesh.face is unchecked). -/
def Mesh.corners {V : Type} (m : Mesh V) (numFaces : Nat) :
    Option (List Nat) :=
  (Option.map cornerList ((List.range numFaces).mapM (fun i => m.faces[i]?)))

/-- USD primvar as seen through the scene-graph boundary: declared value
type, interpolation token, value array, and explicit index array. -/
structure UsdPrimvar (V : Type) where
  valueType : String
  interpolation : Interpolation
  values : List V
  indices : List Int

/-- USD mesh prim as seen through the scene-graph boundary: named primvars
and named plain attributes (value type and values). -/
structure UsdGeomMesh (V : Type) where
  primvars : List (String × UsdPrimvar V)
  attributes : List (String × String × List V)

/-- Primvar lookup by name (UsdGeomPrimvarsAPI::GetPrimvar). -/
def UsdGeomMesh.GetPrimvar {V : Type} (u : UsdGeomMesh V) (nm : String) :
    Option (UsdPrimvar V) :=
  u.primvars.lookup nm

/-- Plain attribute lookup by name (UsdPrim::GetAttribute). -/
def UsdGeomMesh.GetAttribute {V : Type} (u : UsdGeomMesh V) (nm : String) :
    Option (String × List V) :=
  u.attributes.lookup nm

/-- Association update used to model Create…-then-Set on the scene graph:
replaces the first entry with the given key, or appends a new one. -/
def upsertAssoc {β : Type} (k : String) (v : β) :
    List (String × β) → List (String × β)
  | [] => [(k, v)]
  | (k', v') :: rest =>
      if k' = k then (k, v) :: rest else (k', v') :: upsertAssoc k v rest

/-- Container resize as in VtArray / std::vector: keeps the first `size`
elements and value-initializes the rest. -/
def listResize {V : Type} [Inhabited V] (l : List V) (size : Nat) : List V :=
  l.take size ++ List.replicate (size - l.length) default

/-- Ascending integer sequence 0, 1, ..., size-1
(UsdDracoExportAttribute::_MakeRange; the source resizes the output array
and then overwrites every slot, so the result is this sequence regardless
of the array's prior content). -/
def _MakeRange (size : Nat) : List Int :=
  (List.range size).map Int.ofNat

/-- Export-side attribute helper (UsdDracoExportAttribute<ArrayT>).  The
source's `_pointAttribute` raw pointer into the Draco mesh is modelled by
the id of the attribute it created there. -/
structure UsdDracoExportAttribute (V : Type) where
  descriptor : UsdDracoAttributeDescriptor
  pointAttribute : Option Nat
  usePositionIndex : Bool
  values : List V
  indices : List Int

namespace UsdDracoExportAttribute

/-- Constructor: stores the descriptor, null attribute pointer, and a false
position-index flag (UsdDracoExportAttribute::UsdDracoExportAttribute). -/
def init {V : Type} (descriptor : UsdDracoAttributeDescriptor) :
    UsdDracoExportAttribute V :=
  { descriptor := descriptor
    pointAttribute := none
    usePositionIndex := false
    values := []
    indices := [] }

/-- Populates member arrays with data from the USD mesh based on the
descriptor (UsdDracoExportAttribute::GetFromMesh).  Mirrors the source
statement for statement: for a primvar it reads the values and the
explicit indices, returns early on constant interpolation, sets the
position-index flag for vertex interpolation, and synthesizes identity
indices when the index array is empty and the value count matches
`numPositions`; for a plain attribute it reads the values if present. -/
def GetFromMesh {V : Type} (a : UsdDracoExportAttribute V)
    (usdMesh : UsdGeomMesh V) (numPositions : Nat) :
    UsdDracoExportAttribute V :=
  if a.descriptor.isPrimvar then
    match usdMesh.GetPrimvar a.descriptor.name with
    | none => a
    | some primvar =>
      let a1 := { a with values := primvar.values, indices := primvar.indices }
      if primvar.interpolation = Interpolation.constant then a1
      else
        let a2 := { a1 with
          usePositionIndex := primvar.interpolation == Interpolation.vertex }
        if a2.indices.isEmpty && a2.usePositionIndex &&
            (a2.values.length == numPositions) then
          { a2 with indices := _MakeRange numPositions }
        else a2
  else
    match usdMesh.GetAttribute a.descriptor.name with
    | none => a
    | some av => { a with values := av.2 }

/-- Populates the values array with an ascending sequence
(UsdDracoExportAttribute::GetFromRange; only instantiated at the integer
array type in the source). -/
def GetFromRange (a : UsdDracoExportAttribute Int) (size : Nat) :
    UsdDracoExportAttribute Int :=
  { a with values := _MakeRange size }

/-- The Draco point attribute created by SetToMesh: the geometry attribute
is initialized from the descriptor with byte stride numComponents ×
DataTypeLength(dataType); the population loop then writes value `i` from
`_values[i]` for every `i`; AddAttribute is called with explicit
(non-identity) mapping, so all point-map entries start out invalid. -/
def exportedAttribute {V : Type} [Inhabited V]
    (a : UsdDracoExportAttribute V) : PointAttribute V :=
  { attributeType := a.descriptor.attributeType
    numComponents := a.descriptor.numComponents
    dataType := a.descriptor.dataType
    byteStride :=
      a.descriptor.numComponents * DataTypeLength a.descriptor.dataType
    values := (List.range a.values.length).map
      (fun i => a.values.getD i default)
    pointMap := fun _ => none }

/-- Creates the Draco mesh attribute, sets its values and metadata
(UsdDracoExportAttribute::SetToMesh).  Returns the updated helper (its
attribute pointer now set) together with the updated mesh. -/
def SetToMesh {V : Type} [Inhabited V] (a : UsdDracoExportAttribute V)
    (dracoMesh : Mesh V) : UsdDracoExportAttribute V × Mesh V :=
  if a.values.isEmpty then (a, dracoMesh)
  else
    let attrId := dracoMesh.attributes.length
    let m1 := { dracoMesh with
      attributes := dracoMesh.attributes ++ [exportedAttribute a] }
    let m2 :=
      if a.descriptor.metadataName.isEmpty then m1
      else { m1 with attributeMetadata := m1.attributeMetadata ++
        [(attrId, [(METADATA_NAME_KEY, a.descriptor.metadataName)])] }
    ({ a with pointAttribute := some attrId }, m2)

/-- Sets a Draco point-map entry by attribute-value index
(UsdDracoExportAttribute::SetPointMapEntry, single-index overload): no-op
if the attribute was never created. -/
def SetPointMapEntry {V : Type} (a : UsdDracoExportAttribute V)
    (dracoMesh : Mesh V) (pointIndex entryIndex : Nat) : Mesh V :=
  match a.pointAttribute with
  | none => dracoMesh
  | some attrId =>
      dracoMesh.modifyAttribute attrId
        (fun pa => pa.SetPointMapEntry pointIndex entryIndex)

/-- Sets a Draco point-map entry selecting the position or corner index per
the interpolation flag (UsdDracoExportAttribute::SetPointMapEntry,
two-index overload).  The read `_indices[index]` is unchecked in the
source; `none` models the out-of-bounds access.  The `int` index value is
converted to `size_t` as in the source (entries are attribute-value
indices, nonnegative by construction). -/
def SetPointMapEntryIndexed {V : Type} (a : UsdDracoExportAttribute V)
    (dracoMesh : Mesh V) (pointIndex positionIndex cornerIndex : Nat) :
    Option (Mesh V) :=
  match a.pointAttribute with
  | none => some dracoMesh
  | some _ =>
      let index := if a.usePositionIndex then positionIndex else cornerIndex
      match a.indices[index]? with
      | none => none
      | some entryIndex =>
          some (SetPointMapEntry a dracoMesh pointIndex entryIndex.toNat)

/-- Resets the helper to its freshly constructed state
(UsdDracoExportAttribute::Clear). -/
def Clear {V : Type} (a : UsdDracoExportAttribute V) :
    UsdDracoExportAttribute V :=
  { a with
    values := []
    indices := []
    usePositionIndex := false
    pointAttribute := none }

/-- Number of values (UsdDracoExportAttribute::GetNumValues). -/
def GetNumValues {V : Type} (a : UsdDracoExportAttribute V) : Nat :=
  a.values.length

/-- Number of indices (UsdDracoExportAttribute::GetNumIndices). -/
def GetNumIndices {V : Type} (a : UsdDracoExportAttribute V) : Nat :=
  a.indices.length

/-- Whether the position index is used
(UsdDracoExportAttribute::UsesPositionIndex). -/
def UsesPositionIndex {V : Type} (a : UsdDracoExportAttribute V) : Bool :=
  a.usePositionIndex

/-- Whether the Draco attribute has been created
(UsdDracoExportAttribute::HasPointAttribute). -/
def HasPointAttribute {V : Type} (a : UsdDracoExportAttribute V) : Bool :=
  a.pointAttribute.isSome

end UsdDracoExportAttribute

/-- Import-side attribute helper (UsdDracoImportAttribute<ArrayT>).  The
source's `_pointAttribute` is a read-only non-owning pointer into the
Draco mesh; since it is never written through, it is modelled by a copy of
the located attribute (`none` when the lookup failed). -/
structure UsdDracoImportAttribute (V : Type) where
  descriptor : UsdDracoAttributeDescriptor
  pointAttribute : Option (PointAttribute V)
  values : List V
  indices : List Int

namespace UsdDracoImportAttribute

/-- Attribute discovery (UsdDracoImportAttribute::_GetFromMesh): by
semantic type when the descriptor has no metadata name, else by metadata
entry under the reserved key; a -1 id yields the null pointer. -/
def _GetFromMesh {V : Type} (descriptor : UsdDracoAttributeDescriptor)
    (dracoMesh : Mesh V) : Option (PointAttribute V) :=
  let attributeId :=
    if descriptor.metadataName.isEmpty then
      dracoMesh.GetNamedAttributeId descriptor.attributeType
    else
      dracoMesh.GetAttributeIdByMetadataEntry METADATA_NAME_KEY
        descriptor.metadataName
  if attributeId = -1 then none else dracoMesh.attribute attributeId

/-- Constructor: performs attribute discovery and starts with empty value
and index arrays (UsdDracoImportAttribute::UsdDracoImportAttribute). -/
def init {V : Type} (descriptor : UsdDracoAttributeDescriptor)
    (dracoMesh : Mesh V) : UsdDracoImportAttribute V :=
  { descriptor := descriptor
    pointAttribute := _GetFromMesh descriptor dracoMesh
    values := []
    indices := [] }

/-- Writes the data back into the USD mesh
(UsdDracoImportAttribute::SetToMesh): no-op if the attribute is absent;
for a primvar, creates it by name and declared value type, sets values and
indices, and declares face-varying interpolation; otherwise creates a
plain attribute with the values. -/
def SetToMesh {V : Type} (a : UsdDracoImportAttribute V)
    (usdMesh : UsdGeomMesh V) : UsdGeomMesh V :=
  match a.pointAttribute with
  | none => usdMesh
  | some _ =>
    if a.descriptor.isPrimvar then
      let primvar : UsdPrimvar V :=
        { valueType := a.descriptor.valueType
          interpolation := Interpolation.faceVarying
          values := a.values
          indices := a.indices }
      { usdMesh with
        primvars := upsertAssoc a.descriptor.name primvar usdMesh.primvars }
    else
      let attr := (a.descriptor.valueType, a.values)
      { usdMesh with
        attributes := upsertAssoc a.descriptor.name attr usdMesh.attributes }

/-- Copies every attribute value in index order
(UsdDracoImportAttribute::PopulateValues): no-op if absent; otherwise the
values array is resized to the attribute's value count and slot `i`
receives the value at attribute-value index `i` (every access is within
bounds, so the loop is total). -/
def PopulateValues {V : Type} [Inhabited V] (a : UsdDracoImportAttribute V) :
    UsdDracoImportAttribute V :=
  match a.pointAttribute with
  | none => a
  | some pa =>
    let numValues := pa.size
    { a with values :=
        (List.range numValues).map (fun i => pa.values.getD i default) }

/-- Returns the single integer value mapped to a mesh point
(UsdDracoImportAttribute::GetMappedValue; instantiated only at the integer
array type).  The source dereferences `_pointAttribute` without a null
check and reads through the point map without a bounds check; `none`
models that undefined behavior. -/
def GetMappedValue (a : UsdDracoImportAttribute Int) (pi : Nat) :
    Option Int := do
  let pa ← a.pointAttribute
  pa.GetMappedValue pi

/-- Returns the attribute-value index a mesh point maps to
(UsdDracoImportAttribute::GetMappedIndex).  As with GetMappedValue, the
source dereferences `_pointAttribute` unconditionally; `none` models the
null dereference or an invalid map entry. -/
def GetMappedIndex {V : Type} (a : UsdDracoImportAttribute V) (pi : Nat) :
    Option Int := do
  let pa ← a.pointAttribute
  let avi ← pa.pointMap pi
  pure (Int.ofNat avi)

/-- Returns the values array (UsdDracoImportAttribute::GetValues). -/
def GetValues {V : Type} (a : UsdDracoImportAttribute V) : List V :=
  a.values

/-- Resizes the index array (UsdDracoImportAttribute::ResizeIndices):
no-op if absent. -/
def ResizeIndices {V : Type} (a : UsdDracoImportAttribute V) (size : Nat) :
    UsdDracoImportAttribute V :=
  match a.pointAttribute with
  | none => a
  | some _ => { a with indices := listResize a.indices size }

/-- Writes one index entry (UsdDracoImportAttribute::SetIndex).  The
source writes `_indices[at] = index` without a null or bounds check;
`none` models the out-of-bounds write. -/
def SetIndex {V : Type} (a : UsdDracoImportAttribute V) (i : Nat)
    (index : Int) : Option (UsdDracoImportAttribute V) :=
  if i < a.indices.length then
    some { a with indices := a.indices.set i index }
  else none

/-- Number of values (UsdDracoImportAttribute::GetNumValues). -/
def GetNumValues {V : Type} (a : UsdDracoImportAttribute V) : Nat :=
  a.values.length

/-- Number of indices (UsdDracoImportAttribute::GetNumIndices). -/
def GetNumIndices {V : Type} (a : UsdDracoImportAttribute V) : Nat :=
  a.indices.length

/-- Whether a Draco attribute was located
(UsdDracoImportAttribute::HasPointAttribute). -/
def HasPointAttribute {V : Type} (a : UsdDracoImportAttribute V) : Bool :=
  a.pointAttribute.isSome

/-- Loop state of PopulateValuesWithOrder.  `values` and `populated` are
exactly the source's `_values` array and `populated` marker vector; the
`writes` component is a ghost trace that records, in order, each
`(origIndex, pointIndex)` pair for which the loop body performs a write —
it does not influence `values` or `populated` and exists only to state the
write-once property. -/
structure PVWOState (V : Type) where
  values : List V
  populated : List Bool
  writes : List (Nat × Nat)

/-- One iteration of the inner corner loop of PopulateValuesWithOrder:
asks the order attribute for the original index of the corner's point and
copies the point's value into that slot the first time the slot is seen.
`none` models the undefined behavior of a negative or out-of-range
`origIndex`, of a null order attribute, or of an invalid point-map read. -/
def pvwoCorner {V : Type} (pa : PointAttribute V)
    (order : UsdDracoImportAttribute Int) (st : PVWOState V) (pi : Nat) :
    Option (PVWOState V) := do
  let origIndexValue ← order.GetMappedValue pi
  if origIndexValue < 0 then none
  else
    let origIndex := origIndexValue.toNat
    match st.populated[origIndex]? with
    | none => none
    | some true => some st
    | some false => do
        let v ← pa.GetMappedValue pi
        some { values := st.values.set origIndex v
               populated := st.populated.set origIndex true
               writes := st.writes ++ [(origIndex, pi)] }

/-- The face/corner loops of PopulateValuesWithOrder over the flattened
corner sequence (face lookups are pure, so flattening them ahead of the
loop is observationally identical to the source's nested loops). -/
def pvwoLoop {V : Type} (pa : PointAttribute V)
    (order : UsdDracoImportAttribute Int) :
    PVWOState V → List Nat → Option (PVWOState V)
  | st, [] => some st
  | st, pi :: rest => do
      let st1 ← pvwoCorner pa order st pi
      pvwoLoop pa order st1 rest

/-- Copies values into their original pre-deduplication slots
(UsdDracoImportAttribute::PopulateValuesWithOrder): no-op if absent;
otherwise resizes the values array to the attribute's value count, marks
all slots unpopulated, and walks every face's three corners, writing each
slot at its first occurrence only.  Returns the updated helper together
with the ghost write trace. -/
def PopulateValuesWithOrder {V : Type} [Inhabited V]
    (a : UsdDracoImportAttribute V) (order : UsdDracoImportAttribute Int)
    (numFaces : Nat) (dracoMesh : Mesh V) :
    Option (UsdDracoImportAttribute V × List (Nat × Nat)) :=
  match a.pointAttribute with
  | none => some (a, [])
  | some pa => do
    let numValues := pa.size
    let corners ← dracoMesh.corners numFaces
    let st ← pvwoLoop pa order
      { values := listResize a.values numValues
        populated := List.replicate numValues false
        writes := [] } corners
    some ({ a with values := st.values }, st.writes)

end UsdDracoImportAttribute

/-!
Concrete instances used to evaluate the definitions on closed inputs.
The value type is instantiated at `Int`; the translation logic is
value-agnostic.
-/

/-- Descriptor of a constant-interpolation primvar (claim C1). -/
def dC1 : UsdDracoAttributeDescriptor :=
  { attributeType := AttributeType.generic
    name := "primvars:displayColor"
    numComponents := 1
    dataType := DataType.int32
    isPrimvar := true
    valueType := "int[]"
    metadataName := "" }

/-- USD mesh holding one constant-interpolation primvar (claim C1). -/
def uC1 : UsdGeomMesh Int :=
  { primvars :=
      [("primvars:displayColor",
        { valueType := "int[]"
          interpolation := Interpolation.constant
          values := [7]
          indices := [] })]
    attributes := [] }

/-- Empty Draco mesh (claim C1). -/
def mC1 : Mesh Int := { attributes := [], attributeMetadata := [], faces := [] }

/-- Export helper after GetFromMesh on the constant primvar (claim C1). -/
def aC1 : UsdDracoExportAttribute Int :=
  UsdDracoExportAttribute.GetFromMesh (UsdDracoExportAttribute.init dC1) uC1 4

/-- Descriptor whose codec attribute is absent (claim C2). -/
def dC2 : UsdDracoAttributeDescriptor :=
  { attributeType := AttributeType.normal
    name := "normals"
    numComponents := 3
    dataType := DataType.float32
    isPrimvar := true
    valueType := "normal3f[]"
    metadataName := "" }

/-- Draco mesh with no attributes (claim C2). -/
def mC2 : Mesh Int := { attributes := [], attributeMetadata := [], faces := [] }

/-- Empty USD mesh (claim C2). -/
def uC2 : UsdGeomMesh Int := { primvars := [], attributes := [] }

/-- Import helper whose constructor failed to locate a codec attribute
(claim C2). -/
def aC2 : UsdDracoImportAttribute Int := UsdDracoImportAttribute.init dC2 mC2

/-- Arbitrary order attribute passed to PopulateValuesWithOrder
(claim C2). -/
def ordC2 : UsdDracoImportAttribute Int :=
  { descriptor := dC2, pointAttribute := none, values := [], indices := [] }

/-- Position-like attribute with two values; mesh points 0 and 2 share
value slot 0 after deduplication (claim C3). -/
def paC3 : PointAttribute Int :=
  { attributeType := AttributeType.position
    numComponents := 3
    dataType := DataType.float32
    byteStride := 12
    values := [100, 200]
    pointMap := fun q =>
      if q = 0 then some 0 else if q = 1 then some 1 else
      if q = 2 then some 0 else none }

/-- Order attribute mapping mesh points 0, 1, 2 to original slots
0, 1, 0 (claim C3). -/
def opaC3 : PointAttribute Int :=
  { attributeType := AttributeType.generic
    numComponents := 1
    dataType := DataType.int32
    byteStride := 4
    values := [0, 1, 0]
    pointMap := fun q => if q < 3 then some q else none }

/-- Import helper for the order attribute (claim C3). -/
def ordC3 : UsdDracoImportAttribute Int :=
  { descriptor := dC2, pointAttribute := some opaC3, values := [], indices := [] }

/-- Import helper for the position attribute (claim C3). -/
def aC3 : UsdDracoImportAttribute Int :=
  { descriptor := dC2, pointAttribute := some paC3, values := [], indices := [] }

/-- Draco mesh with a single triangle over points 0, 1, 2 (claim C3). -/
def mC3 : Mesh Int :=
  { attributes := [paC3, opaC3], attributeMetadata := [], faces := [(0, 1, 2)] }

/-- Slot function realized by the order attribute of mC3 (claim C3). -/
def sC3 : Nat → Nat := fun pi => if pi = 1 then 1 else 0

/-- Descriptor of a vertex-interpolation primvar (claim C4). -/
def dC4 : UsdDracoAttributeDescriptor :=
  { attributeType := AttributeType.position
    name := "primvars:test"
    numComponents := 1
    dataType := DataType.float32
    isPrimvar := true
    valueType := "float[]"
    metadataName := "" }

/-- Vertex-interpolation primvar with no explicit indices (claim C4). -/
def pvC4 : UsdPrimvar Int :=
  { valueType := "float[]"
    interpolation := Interpolation.vertex
    values := [5, 6, 7]
    indices := [] }

/-- USD mesh holding the vertex-interpolation primvar (claim C4). -/
def uC4 : UsdGeomMesh Int :=
  { primvars := [("primvars:test", pvC4)], attributes := [] }

/-- Export helper for the vertex-interpolation primvar (claim C4). -/
def aC4 : UsdDracoExportAttribute Int := UsdDracoExportAttribute.init dC4

/-- Descriptor of a first generic attribute tagged "u" (claim C5). -/
def dC5a : UsdDracoAttributeDescriptor :=
  { attributeType := AttributeType.generic
    name := "primvars:u"
    numComponents := 1
    dataType := DataType.float32
    isPrimvar := true
    valueType := "float[]"
    metadataName := "u" }

/-- Descriptor of a second generic attribute tagged "v" (claim C5). -/
def dC5b : UsdDracoAttributeDescriptor :=
  { attributeType := AttributeType.generic
    name := "primvars:v"
    numComponents := 1
    dataType := DataType.float32
    isPrimvar := true
    valueType := "float[]"
    metadataName := "v" }

/-- Populated export helper for the first tagged attribute (claim C5). -/
def aC5a : UsdDracoExportAttribute Int :=
  { descriptor := dC5a, pointAttribute := none, usePositionIndex := false
    values := [1, 2], indices := [] }

/-- Populated export helper for the second tagged attribute (claim C5). -/
def aC5b : UsdDracoExportAttribute Int :=
  { descriptor := dC5b, pointAttribute := none, usePositionIndex := false
    values := [3, 4], indices := [] }

/-- Empty Draco mesh (claim C5). -/
def mC5 : Mesh Int := { attributes := [], attributeMetadata := [], faces := [] }

/-- Descriptor of a texture-coordinate primvar (claim C6). -/
def dC6 : UsdDracoAttributeDescriptor :=
  { attributeType := AttributeType.texCoord
    name := "primvars:st"
    numComponents := 2
    dataType := DataType.float32
    isPrimvar := true
    valueType := "texCoord2f[]"
    metadataName := "st" }

/-- Present codec attribute backing the primvar (claim C6). -/
def paC6 : PointAttribute Int :=
  { attributeType := AttributeType.texCoord
    numComponents := 2
    dataType := DataType.float32
    byteStride := 8
    values := [9]
    pointMap := fun _ => some 0 }

/-- Import helper with populated values and indices (claim C6). -/
def aC6 : UsdDracoImportAttribute Int :=
  { descriptor := dC6, pointAttribute := some paC6
    values := [9], indices := [0, 0, 0] }

/-- Empty USD mesh (claim C6). -/
def uC6 : UsdGeomMesh Int := { primvars := [], attributes := [] }

/-- Descriptor of a vertex-interpolation position primvar (claim C7). -/
def dC7 : UsdDracoAttributeDescriptor :=
  { attributeType := AttributeType.position
    name := "points"
    numComponents := 3
    dataType := DataType.float32
    isPrimvar := true
    valueType := "point3f[]"
    metadataName := "" }

/-- Codec attribute already created in the mesh (claim C7). -/
def paC7 : PointAttribute Int :=
  { attributeType := AttributeType.position
    numComponents := 3
    dataType := DataType.float32
    byteStride := 12
    values := [1, 2, 3, 4]
    pointMap := fun _ => none }

/-- Draco mesh holding that attribute under id 0 (claim C7). -/
def mC7 : Mesh Int :=
  { attributes := [paC7], attributeMetadata := [], faces := [] }

/-- Export helper whose attribute pointer refers to id 0 and whose index
array maps scene index 0 to attribute value 3 (claim C7). -/
def aC7 : UsdDracoExportAttribute Int :=
  { descriptor := dC7, pointAttribute := some 0, usePositionIndex := true
    values := [1, 2, 3, 4], indices := [3, 0, 2] }

/-- Descriptor for an empty-valued export helper (claim C8). -/
def dC8 : UsdDracoAttributeDescriptor :=
  { attributeType := AttributeType.normal
    name := "normals"
    numComponents := 3
    dataType := DataType.float32
    isPrimvar := true
    valueType := "normal3f[]"
    metadataName := "" }

/-- Freshly constructed export helper, value array empty (claim C8). -/
def aC8 : UsdDracoExportAttribute Int := UsdDracoExportAttribute.init dC8

/-- Empty Draco mesh (claim C8). -/
def mC8 : Mesh Int := { attributes := [], attributeMetadata := [], faces := [] }

/-- Present codec attribute with three values (claim C9). -/
def paC9 : PointAttribute Int :=
  { attributeType := AttributeType.position
    numComponents := 3
    dataType := DataType.float32
    byteStride := 12
    values := [10, 20, 30]
    pointMap := fun _ => none }

/-- Import helper holding that attribute (claim C9). -/
def aC9 : UsdDracoImportAttribute Int :=
  { descriptor := dC7, pointAttribute := some paC9, values := [], indices := [] }

/-!
Helper lemmas.
-/

/-- Reading every position of a list in order reproduces the list; this is
the effect of the elementwise copy loops in SetToMesh and PopulateValues. -/
theorem list_map_getD_range {V : Type} [Inhabited V] (l : List V) :
    (List.range l.length).map (fun i => l.getD i default) = l := by
  apply List.ext_getElem?
  intro i
  rw [List.getElem?_map]
  by_cases h : i < l.length
  · rw [List.getElem?_range h, Option.map_some', List.getD_eq_getElem l default h,
      List.getElem?_eq_getElem h]
  · have h1 : (List.range l.length)[i]? = none := by
      rw [List.getElem?_eq_none]
      simpa using Nat.le_of_not_lt h
    have h2 : l[i]? = none := by
      rw [List.getElem?_eq_none]
      exact Nat.le_of_not_lt h
    rw [h1, h2, Option.map_none']

/-- Association lookup after an upsert with the same key. -/
theorem lookup_upsertAssoc {β : Type} (k : String) (v : β)
    (l : List (String × β)) : (upsertAssoc k v l).lookup k = some v := by
  induction l with
  | nil => simp [upsertAssoc, List.lookup]
  | cons e rest ih =>
    obtain ⟨k1, v1⟩ := e
    by_cases h : k1 = k
    · subst h
      simp [upsertAssoc, List.lookup]
    · simp only [upsertAssoc, if_neg h, List.lookup]
      have hbeq : (k == k1) = false := by
        simp [beq_eq_false_iff_ne, Ne.symm h]
      rw [hbeq]
      exact ih

/-!
Claim theorems.
-/

/-- Claim C10: after Clear() the export helper is observably identical to a
freshly constructed one: GetNumValues() = 0, GetNumIndices() = 0,
UsesPositionIndex() = false, and HasPointAttribute() = false. -/
theorem clear_resets_to_fresh {V : Type} (a : UsdDracoExportAttribute V) :
    a.Clear = UsdDracoExportAttribute.init a.descriptor ∧
    a.Clear.GetNumValues = 0 ∧
    a.Clear.GetNumIndices = 0 ∧
    a.Clear.UsesPositionIndex = false ∧
    a.Clear.HasPointAttribute = false :=
  ⟨rfl, rfl, rfl, rfl, rfl⟩

/-- Claim C8: for an export helper whose value array is empty, SetToMesh is
a no-op: the helper and the Draco mesh are unchanged (so no codec point
attribute is created), and HasPointAttribute() remains false if it was
false before. -/
theorem setToMesh_empty_noop {V : Type} [Inhabited V]
    (a : UsdDracoExportAttribute V) (m : Mesh V) (h : a.values = []) :
    a.SetToMesh m = (a, m) ∧
    (a.HasPointAttribute = false →
      (a.SetToMesh m).1.HasPointAttribute = false) := by
  have he : a.values.isEmpty = true := by rw [h]; rfl
  refine ⟨?_, ?_⟩
  · simp [UsdDracoExportAttribute.SetToMesh, he]
  · intro hf
    simp [UsdDracoExportAttribute.SetToMesh, he, hf]

/-- Witness: setToMesh_empty_noop applied to a freshly constructed helper
and an empty Draco mesh. -/
theorem setToMesh_empty_noop_witness :
    aC8.SetToMesh mC8 = (aC8, mC8) ∧
    (aC8.HasPointAttribute = false →
      (aC8.SetToMesh mC8).1.HasPointAttribute = false) :=
  setToMesh_empty_noop aC8 mC8 rfl

/-- Claim C9: with a present codec attribute, PopulateValues produces a
values array whose length equals the attribute's value count and whose
entry at each index i equals the attribute's value at attribute-value
index i; with an absent attribute it is a no-op. -/
theorem populateValues_spec {V : Type} [Inhabited V]
    (a : UsdDracoImportAttribute V) :
    (a.pointAttribute = none → a.PopulateValues = a) ∧
    (∀ pa, a.pointAttribute = some pa →
      a.PopulateValues.values.length = pa.size ∧
      ∀ i, i < pa.size → a.PopulateValues.values[i]? = pa.values[i]?) := by
  constructor
  · intro h
    simp [UsdDracoImportAttribute.PopulateValues, h]
  · intro pa h
    have hv : a.PopulateValues.values = pa.values := by
      simp only [UsdDracoImportAttribute.PopulateValues, h, PointAttribute.size]
      exact list_map_getD_range pa.values
    rw [hv]
    exact ⟨rfl, fun i _ => rfl⟩

/-- Witness: populateValues_spec applied to a concrete three-value
attribute, with the entry property checked at index 1. -/
theorem populateValues_spec_witness :
    aC9.PopulateValues.values.length = paC9.size ∧
    aC9.PopulateValues.values[1]? = paC9.values[1]? :=
  ⟨((populateValues_spec aC9).2 paC9 rfl).1,
   ((populateValues_spec aC9).2 paC9 rfl).2 1 (by decide)⟩

/-- Claim C7: SetPointMapEntry(pointIndex, positionIndex, cornerIndex) is a
no-op when the point attribute was never created; otherwise, with selected
= positionIndex when usesPositionIndex and cornerIndex otherwise, and
selected a valid offset into the index array, the point's map entry is set
to the index-array value at selected. -/
theorem setPointMapEntry_spec {V : Type} (a : UsdDracoExportAttribute V)
    (m : Mesh V) (pointIndex positionIndex cornerIndex : Nat) :
    (a.pointAttribute = none →
      a.SetPointMapEntryIndexed m pointIndex positionIndex cornerIndex =
        some m) ∧
    (∀ attrId pa e, a.pointAttribute = some attrId →
      m.attributes[attrId]? = some pa →
      a.indices[(if a.usePositionIndex then positionIndex
                 else cornerIndex)]? = some (Int.ofNat e) →
      a.SetPointMapEntryIndexed m pointIndex positionIndex cornerIndex =
        some { m with attributes :=
          m.attributes.set attrId (pa.SetPointMapEntry pointIndex e) } ∧
      (pa.SetPointMapEntry pointIndex e).pointMap pointIndex = some e) := by
  constructor
  · intro h
    simp [UsdDracoExportAttribute.SetPointMapEntryIndexed, h]
  · intro attrId pa e h hm hi
    constructor
    · simp [UsdDracoExportAttribute.SetPointMapEntryIndexed, h, hi,
        UsdDracoExportAttribute.SetPointMapEntry, Mesh.modifyAttribute, hm,
        Int.toNat_ofNat]
    · simp [PointAttribute.SetPointMapEntry]

/-- Witness: setPointMapEntry_spec applied to a helper with a created
attribute, position indexing, and index array entry 3 at offset 0. -/
theorem setPointMapEntry_spec_witness :
    aC7.SetPointMapEntryIndexed mC7 5 0 1 =
      some { mC7 with attributes :=
        mC7.attributes.set 0 (paC7.SetPointMapEntry 5 3) } ∧
    (paC7.SetPointMapEntry 5 3).pointMap 5 = some 3 :=
  (setPointMapEntry_spec aC7 mC7 5 0 1).2 0 paC7 3 rfl rfl rfl

/-- Claim C4: for a primvar read by GetFromMesh with vertex interpolation
and an empty explicit index array, the resulting index array is the
identity sequence 0..numPositions-1 when the value count equals
numPositions, and stays empty otherwise. -/
theorem getFromMesh_implicit_indexing {V : Type}
    (a : UsdDracoExportAttribute V) (u : UsdGeomMesh V) (numPositions : Nat)
    (pv : UsdPrimvar V)
    (hprim : a.descriptor.isPrimvar = true)
    (hfound : u.GetPrimvar a.descriptor.name = some pv)
    (hvertex : pv.interpolation = Interpolation.vertex)
    (hnoidx : pv.indices = []) :
    (a.GetFromMesh u numPositions).indices =
      (if pv.values.length = numPositions then _MakeRange numPositions
       else []) := by
  simp only [UsdDracoExportAttribute.GetFromMesh, hprim, hfound, hvertex,
    hnoidx, if_true]
  by_cases hlen : pv.values.length = numPositions
  · simp [hlen]
  · simp [hlen]

/-- Witness: getFromMesh_implicit_indexing applied to a three-value vertex
primvar with numPositions = 3 (matching count, identity indices). -/
theorem getFromMesh_implicit_indexing_witness :
    (aC4.GetFromMesh uC4 3).indices =
      (if pvC4.values.length = 3 then _MakeRange 3 else []) :=
  getFromMesh_implicit_indexing aC4 uC4 3 pvC4 rfl rfl rfl rfl

/-- Claim C6: with a present codec attribute, import SetToMesh creates the
primvar by name and declared value type, sets its values and indices, and
always sets face-varying interpolation regardless of the prior scene
state; with a non-primvar descriptor it creates a plain attribute with the
values and leaves the primvars untouched. -/
theorem import_setToMesh_spec {V : Type} (a : UsdDracoImportAttribute V)
    (u : UsdGeomMesh V) (pa : PointAttribute V)
    (hpa : a.pointAttribute = some pa) :
    (a.descriptor.isPrimvar = true →
      (a.SetToMesh u).GetPrimvar a.descriptor.name =
        some { valueType := a.descriptor.valueType
               interpolation := Interpolation.faceVarying
               values := a.values
               indices := a.indices } ∧
      (a.SetToMesh u).attributes = u.attributes) ∧
    (a.descriptor.isPrimvar = false →
      (a.SetToMesh u).GetAttribute a.descriptor.name =
        some (a.descriptor.valueType, a.values) ∧
      (a.SetToMesh u).primvars = u.primvars) := by
  constructor
  · intro hp
    constructor
    · simp [UsdDracoImportAttribute.SetToMesh, hpa, hp,
        UsdGeomMesh.GetPrimvar, lookup_upsertAssoc]
    · simp [UsdDracoImportAttribute.SetToMesh, hpa, hp]
  · intro hp
    constructor
    · simp [UsdDracoImportAttribute.SetToMesh, hpa, hp,
        UsdGeomMesh.GetAttribute, lookup_upsertAssoc]
    · simp [UsdDracoImportAttribute.SetToMesh, hpa, hp]

/-- Witness: import_setToMesh_spec applied to a concrete present primvar
attribute written into an empty USD mesh. -/
theorem import_setToMesh_spec_witness :
    (aC6.SetToMesh uC6).GetPrimvar aC6.descriptor.name =
      some { valueType := aC6.descriptor.valueType
             interpolation := Interpolation.faceVarying
             values := aC6.values
             indices := aC6.indices } ∧
    (aC6.SetToMesh uC6).attributes = uC6.attributes :=
  (import_setToMesh_spec aC6 uC6 paC6 rfl).1 rfl

/-- Claim C2 (amended): when the constructor's lookup fails, the internal
reference is null, and SetToMesh, PopulateValues, PopulateValuesWithOrder
and ResizeIndices are no-ops; SetIndex, GetMappedIndex and GetMappedValue,
however, carry no absence guard in the source — on an absent attribute
they reach an out-of-bounds write into the empty index array respectively
a null-pointer dereference, modelled here as `none`. -/
theorem absent_attribute_behavior :
    (∀ {V : Type} [Inhabited V] (d : UsdDracoAttributeDescriptor) (m : Mesh V)
       (u : UsdGeomMesh V) (order : UsdDracoImportAttribute Int)
       (numFaces k pi : Nat),
      UsdDracoImportAttribute._GetFromMesh d m = none →
      (UsdDracoImportAttribute.init d m).pointAttribute = none ∧
      (UsdDracoImportAttribute.init d m).SetToMesh u = u ∧
      (UsdDracoImportAttribute.init d m).PopulateValues =
        UsdDracoImportAttribute.init d m ∧
      (UsdDracoImportAttribute.init d m).PopulateValuesWithOrder order
        numFaces m = some (UsdDracoImportAttribute.init d m, []) ∧
      (UsdDracoImportAttribute.init d m).ResizeIndices k =
        UsdDracoImportAttribute.init d m ∧
      (UsdDracoImportAttribute.init d m).GetMappedIndex pi = none ∧
      (∀ i x, (UsdDracoImportAttribute.init d m).SetIndex i x = none)) ∧
    (∀ (d : UsdDracoAttributeDescriptor) (m : Mesh Int) (pi : Nat),
      UsdDracoImportAttribute._GetFromMesh d m = none →
      (UsdDracoImportAttribute.init d m).GetMappedValue pi = none) := by
  constructor
  · intro V _ d m u order numFaces k pi h
    refine ⟨h, ?_, ?_, ?_, ?_, ?_, ?_⟩
    · simp [UsdDracoImportAttribute.SetToMesh,
        UsdDracoImportAttribute.init, h]
    · simp [UsdDracoImportAttribute.PopulateValues,
        UsdDracoImportAttribute.init, h]
    · simp [UsdDracoImportAttribute.PopulateValuesWithOrder,
        UsdDracoImportAttribute.init, h]
    · simp [UsdDracoImportAttribute.ResizeIndices,
        UsdDracoImportAttribute.init, h]
    · simp [UsdDracoImportAttribute.GetMappedIndex,
        UsdDracoImportAttribute.init, h]
    · intro i x
      simp [UsdDracoImportAttribute.SetIndex, UsdDracoImportAttribute.init]
  · intro d m pi h
    simp [UsdDracoImportAttribute.GetMappedValue,
      UsdDracoImportAttribute.init, h]

/-- Witness: absent_attribute_behavior applied to a concrete descriptor
whose lookup over an empty Draco mesh returns -1. -/
theorem absent_attribute_behavior_witness :
    aC2.pointAttribute = none ∧
    aC2.SetToMesh uC2 = uC2 ∧
    aC2.PopulateValues = aC2 ∧
    aC2.PopulateValuesWithOrder ordC2 0 mC2 = some (aC2, []) ∧
    aC2.ResizeIndices 4 = aC2 ∧
    aC2.GetMappedIndex 0 = none ∧
    aC2.SetIndex 0 5 = none ∧
    aC2.GetMappedValue 0 = none := by
  have h1 := absent_attribute_behavior.1 dC2 mC2 uC2 ordC2 0 4 0 rfl
  have h2 := absent_attribute_behavior.2 dC2 mC2 0 rfl
  exact ⟨h1.1, h1.2.1, h1.2.2.1, h1.2.2.2.1, h1.2.2.2.2.1,
    h1.2.2.2.2.2.1, h1.2.2.2.2.2.2 0 5, h2⟩

/-- Claim C2 counterexample: on a concrete import attribute whose lookup
failed, SetIndex, GetMappedValue and GetMappedIndex are neither no-ops nor
neutral results: each runs into the unguarded null dereference or
out-of-bounds write of the source, modelled as `none`. -/
theorem absent_attribute_counterexample :
    aC2.GetMappedValue 0 = none ∧
    aC2.GetMappedIndex 0 = none ∧
    aC2.SetIndex 0 5 = none :=
  ⟨rfl, rfl, rfl⟩

/-- Claim C1 (code-bug evaluation): GetFromMesh stores the primvar's
values before the constant-interpolation early return, and SetToMesh only
checks emptiness, so a constant primvar with a value is translated into a
codec point attribute after all: on the concrete constant primvar uC1 the
Draco mesh ends up containing an attribute for the descriptor and the
helper reports HasPointAttribute, contradicting the documented
"constant primvars are not translated to Draco" behavior. -/
theorem constant_primvar_still_exported :
    (uC1.GetPrimvar dC1.name).map UsdPrimvar.interpolation =
      some Interpolation.constant ∧
    aC1.values = [7] ∧
    (aC1.SetToMesh mC1).2.attributes.length = 1 ∧
    (aC1.SetToMesh mC1).2.GetNamedAttributeId dC1.attributeType ≠ -1 ∧
    (aC1.SetToMesh mC1).1.HasPointAttribute = true := by
  refine ⟨rfl, rfl, rfl, ?_, rfl⟩
  decide

/-- The population loop of SetToMesh copies the helper's values verbatim
into the created attribute. -/
theorem exportedAttribute_values {V : Type} [Inhabited V]
    (a : UsdDracoExportAttribute V) :
    a.exportedAttribute.values = a.values :=
  list_map_getD_range a.values

/-- A -1 result of the metadata lookup means no metadata record matches. -/
theorem getAttributeIdByMetadataEntry_eq_neg_one {V : Type} (m : Mesh V)
    (key value : String)
    (h : m.GetAttributeIdByMetadataEntry key value = -1) :
    m.attributeMetadata.find?
      (fun e => e.2.lookup key == some value) = none := by
  unfold Mesh.GetAttributeIdByMetadataEntry at h
  cases hf : m.attributeMetadata.find?
      (fun e => e.2.lookup key == some value) with
  | none => rfl
  | some e =>
    rw [hf] at h
    exfalso
    have he : Int.ofNat e.1 = -1 := h
    rw [Int.ofNat_eq_coe] at he
    omega

/-- Unfolding of export SetToMesh when values are present and the
descriptor carries a metadata name. -/
theorem setToMesh_nonempty_named {V : Type} [Inhabited V]
    (a : UsdDracoExportAttribute V) (m : Mesh V)
    (hv : a.values.isEmpty = false)
    (hn : a.descriptor.metadataName.isEmpty = false) :
    (a.SetToMesh m).1 = { a with pointAttribute := some m.attributes.length } ∧
    (a.SetToMesh m).2.attributes = m.attributes ++ [a.exportedAttribute] ∧
    (a.SetToMesh m).2.attributeMetadata = m.attributeMetadata ++
      [(m.attributes.length,
        [(METADATA_NAME_KEY, a.descriptor.metadataName)])] := by
  refine ⟨?_, ?_, ?_⟩ <;>
    simp [UsdDracoExportAttribute.SetToMesh, hv, hn]

/-- Claim C5: for descriptors with non-empty metadata names, export
SetToMesh attaches the name as a string metadata entry under the reserved
key on the created codec attribute, and an import lookup with the same
descriptor retrieves exactly that attribute; with two same-typed exports
under different metadata names, each import retrieves its own. -/
theorem metadata_roundtrip {V : Type} [Inhabited V]
    (a1 a2 : UsdDracoExportAttribute V) (m : Mesh V)
    (hn1 : a1.descriptor.metadataName.isEmpty = false)
    (hn2 : a2.descriptor.metadataName.isEmpty = false)
    (hne : a1.descriptor.metadataName ≠ a2.descriptor.metadataName)
    (hv1 : a1.values.isEmpty = false)
    (hv2 : a2.values.isEmpty = false)
    (hm1 : m.GetAttributeIdByMetadataEntry METADATA_NAME_KEY
      a1.descriptor.metadataName = -1)
    (hm2 : m.GetAttributeIdByMetadataEntry METADATA_NAME_KEY
      a2.descriptor.metadataName = -1) :
    ∃ pa1 pa2,
      (a2.SetToMesh (a1.SetToMesh m).2).2.attributes[m.attributes.length]? =
        some pa1 ∧
      (a2.SetToMesh (a1.SetToMesh m).2).2.attributes[m.attributes.length + 1]? =
        some pa2 ∧
      (m.attributes.length,
        [(METADATA_NAME_KEY, a1.descriptor.metadataName)]) ∈
        (a2.SetToMesh (a1.SetToMesh m).2).2.attributeMetadata ∧
      (m.attributes.length + 1,
        [(METADATA_NAME_KEY, a2.descriptor.metadataName)]) ∈
        (a2.SetToMesh (a1.SetToMesh m).2).2.attributeMetadata ∧
      UsdDracoImportAttribute._GetFromMesh a1.descriptor
        (a2.SetToMesh (a1.SetToMesh m).2).2 = some pa1 ∧
      UsdDracoImportAttribute._GetFromMesh a2.descriptor
        (a2.SetToMesh (a1.SetToMesh m).2).2 = some pa2 ∧
      pa1.values = a1.values ∧ pa2.values = a2.values := by
  obtain ⟨h1p, h1a, h1m⟩ := setToMesh_nonempty_named a1 m hv1 hn1
  obtain ⟨h2p, h2a, h2m⟩ :=
    setToMesh_nonempty_named a2 (a1.SetToMesh m).2 hv2 hn2
  have hlen1 : (a1.SetToMesh m).2.attributes.length =
      m.attributes.length + 1 := by
    rw [h1a]; simp
  rw [h1a] at h2a
  rw [h1m, hlen1] at h2m
  have hfind1 := getAttributeIdByMetadataEntry_eq_neg_one m METADATA_NAME_KEY
    a1.descriptor.metadataName hm1
  have hfind2 := getAttributeIdByMetadataEntry_eq_neg_one m METADATA_NAME_KEY
    a2.descriptor.metadataName hm2
  have hpred1 : (fun (e : Nat × List (String × String)) =>
      e.2.lookup METADATA_NAME_KEY == some a1.descriptor.metadataName)
      (m.attributes.length,
        [(METADATA_NAME_KEY, a1.descriptor.metadataName)]) = true := by
    simp [List.lookup]
  have hpred21 : (fun (e : Nat × List (String × String)) =>
      e.2.lookup METADATA_NAME_KEY == some a2.descriptor.metadataName)
      (m.attributes.length,
        [(METADATA_NAME_KEY, a1.descriptor.metadataName)]) = false := by
    simp [List.lookup, hne]
  have hpred22 : (fun (e : Nat × List (String × String)) =>
      e.2.lookup METADATA_NAME_KEY == some a2.descriptor.metadataName)
      (m.attributes.length + 1,
        [(METADATA_NAME_KEY, a2.descriptor.metadataName)]) = true := by
    simp [List.lookup]
  have hfx1 := @List.find?_cons_of_pos (Nat × List (String × String))
    (fun e => e.2.lookup METADATA_NAME_KEY == some a1.descriptor.metadataName)
    (m.attributes.length, [(METADATA_NAME_KEY, a1.descriptor.metadataName)])
    [(m.attributes.length + 1,
      [(METADATA_NAME_KEY, a2.descriptor.metadataName)])]
    hpred1
  have hfx2a := @List.find?_cons_of_neg (Nat × List (String × String))
    (fun e => e.2.lookup METADATA_NAME_KEY == some a2.descriptor.metadataName)
    (m.attributes.length, [(METADATA_NAME_KEY, a1.descriptor.metadataName)])
    [(m.attributes.length + 1,
      [(METADATA_NAME_KEY, a2.descriptor.metadataName)])]
    (by rw [hpred21]; exact Bool.false_ne_true)
  have hfx2b := @List.find?_cons_of_pos (Nat × List (String × String))
    (fun e => e.2.lookup METADATA_NAME_KEY == some a2.descriptor.metadataName)
    (m.attributes.length + 1,
      [(METADATA_NAME_KEY, a2.descriptor.metadataName)])
    []
    hpred22
  have hid1 : (a2.SetToMesh (a1.SetToMesh m).2).2.GetAttributeIdByMetadataEntry
      METADATA_NAME_KEY a1.descriptor.metadataName =
      Int.ofNat m.attributes.length := by
    unfold Mesh.GetAttributeIdByMetadataEntry
    rw [h2m, List.append_assoc, List.find?_append, hfind1, Option.none_or,
      List.singleton_append, hfx1]
  have hid2 : (a2.SetToMesh (a1.SetToMesh m).2).2.GetAttributeIdByMetadataEntry
      METADATA_NAME_KEY a2.descriptor.metadataName =
      Int.ofNat (m.attributes.length + 1) := by
    unfold Mesh.GetAttributeIdByMetadataEntry
    rw [h2m, List.append_assoc, List.find?_append, hfind2, Option.none_or,
      List.singleton_append, hfx2a, hfx2b]
  have hattr1 : (a2.SetToMesh (a1.SetToMesh m).2).2.attributes[
      m.attributes.length]? = some a1.exportedAttribute := by
    rw [h2a, List.append_assoc,
      List.getElem?_append_right (Nat.le_refl _)]
    simp
  have hattr2 : (a2.SetToMesh (a1.SetToMesh m).2).2.attributes[
      m.attributes.length + 1]? = some a2.exportedAttribute := by
    rw [h2a, List.append_assoc,
      List.getElem?_append_right (Nat.le_succ_of_le (Nat.le_refl _))]
    simp
  refine ⟨a1.exportedAttribute, a2.exportedAttribute, hattr1, hattr2,
    ?_, ?_, ?_, ?_, exportedAttribute_values a1, exportedAttribute_values a2⟩
  · rw [h2m]
    simp
  · rw [h2m]
    simp
  · unfold UsdDracoImportAttribute._GetFromMesh
    rw [hn1]
    simp only [Bool.false_eq_true, if_false, hid1]
    rw [if_neg (by rw [Int.ofNat_eq_coe]; omega)]
    unfold Mesh.attribute
    rw [Int.ofNat_eq_coe, Int.toNat_natCast]
    exact hattr1
  · unfold UsdDracoImportAttribute._GetFromMesh
    rw [hn2]
    simp only [Bool.false_eq_true, if_false, hid2]
    rw [if_neg (by rw [Int.ofNat_eq_coe]; omega)]
    unfold Mesh.attribute
    rw [Int.ofNat_eq_coe, Int.toNat_natCast]
    exact hattr2

/-- Evaluation of one corner step of PopulateValuesWithOrder when the
order attribute yields a nonnegative slot whose populated flag is known. -/
theorem pvwoCorner_eval {V : Type} [Inhabited V] (pa : PointAttribute V)
    (order : UsdDracoImportAttribute Int)
    (st : UsdDracoImportAttribute.PVWOState V) (pi j : Nat) (b : Bool)
    (ho : order.GetMappedValue pi = some (Int.ofNat j))
    (hb : st.populated[j]? = some b) :
    UsdDracoImportAttribute.pvwoCorner pa order st pi =
      (if b then some st
       else (pa.GetMappedValue pi).bind (fun v => some
         { values := st.values.set j v
           populated := st.populated.set j true
           writes := st.writes ++ [(j, pi)] })) := by
  unfold UsdDracoImportAttribute.pvwoCorner
  rw [ho]
  have hneg : ¬ (Int.ofNat j < 0) := by
    rw [Int.ofNat_eq_coe]
    omega
  simp only [Option.bind_eq_bind, Option.some_bind, hneg, if_false,
    Int.ofNat_eq_coe, Int.toNat_natCast]
  rw [hb]
  cases b with
  | true => simp
  | false => simp

/-- Invariant of the corner loop of PopulateValuesWithOrder: starting from
any state, the loop performs exactly one write per not-yet-populated slot
occurring among the remaining corners, at that slot's first occurrence. -/
theorem pvwoLoop_writes {V : Type} [Inhabited V] (pa : PointAttribute V)
    (order : UsdDracoImportAttribute Int) (s : Nat → Nat) :
    ∀ (todo : List Nat) (st : UsdDracoImportAttribute.PVWOState V),
    st.populated.length = pa.size →
    (∀ pi ∈ todo, order.GetMappedValue pi = some (Int.ofNat (s pi)) ∧
      s pi < pa.size) →
    (∀ pi ∈ todo, (pa.GetMappedValue pi).isSome = true) →
    ∃ st2 nw,
      UsdDracoImportAttribute.pvwoLoop pa order st todo = some st2 ∧
      st2.populated.length = pa.size ∧
      st2.writes = st.writes ++ nw ∧
      (nw.map Prod.fst).Nodup ∧
      (∀ j, j ∈ nw.map Prod.fst ↔
        (j ∈ todo.map s ∧ ¬ st.populated[j]? = some true)) ∧
      (∀ w ∈ nw, todo.find? (fun pi => s pi == w.1) = some w.2) ∧
      (∀ j, st2.populated[j]? = some true ↔
        (st.populated[j]? = some true ∨ j ∈ nw.map Prod.fst)) := by
  intro todo
  induction todo with
  | nil =>
    intro st hlen _ _
    refine ⟨st, [], rfl, hlen, by simp, by simp, ?_, ?_, ?_⟩
    · intro j
      simp
    · intro w hw
      simp at hw
    · intro j
      simp
  | cons pi rest ih =>
    intro st hlen hord hval
    obtain ⟨ho, hs⟩ := hord pi (List.mem_cons_self pi rest)
    have hord' : ∀ q ∈ rest, order.GetMappedValue q = some (Int.ofNat (s q)) ∧
        s q < pa.size := fun q hq => hord q (List.mem_cons_of_mem pi hq)
    have hval' : ∀ q ∈ rest, (pa.GetMappedValue q).isSome = true :=
      fun q hq => hval q (List.mem_cons_of_mem pi hq)
    have hjlen : s pi < st.populated.length := by
      rw [hlen]
      exact hs
    obtain ⟨b, hpop⟩ : ∃ b, st.populated[s pi]? = some b := by
      rw [List.getElem?_eq_getElem hjlen]
      exact ⟨_, rfl⟩
    have heval := pvwoCorner_eval pa order st pi (s pi) b ho hpop
    cases b with
    | true =>
      rw [if_pos rfl] at heval
      have hloop : UsdDracoImportAttribute.pvwoLoop pa order st (pi :: rest) =
          UsdDracoImportAttribute.pvwoLoop pa order st rest := by
        simp only [UsdDracoImportAttribute.pvwoLoop, heval,
          Option.bind_eq_bind, Option.some_bind]
      obtain ⟨st2, nw, hrun, hlen2, hw, hnodup, hmem, hfind, hpopchar⟩ :=
        ih st hlen hord' hval'
      refine ⟨st2, nw, by rw [hloop]; exact hrun, hlen2, hw, hnodup,
        ?_, ?_, hpopchar⟩
      · intro j
        constructor
        · intro hj
          obtain ⟨hjr, hnp⟩ := (hmem j).mp hj
          exact ⟨by simp [List.mem_cons]; right; simpa using hjr, hnp⟩
        · rintro ⟨hjc, hnp⟩
          rcases (by simpa using hjc : j = s pi ∨ j ∈ rest.map s) with hji | hji
          · exfalso
            apply hnp
            rw [hji]
            exact hpop
          · exact (hmem j).mpr ⟨hji, hnp⟩
      · intro w hwmem
        have hw1 : w.1 ∈ nw.map Prod.fst := List.mem_map_of_mem Prod.fst hwmem
        have hne : (s pi == w.1) = false := by
          have hnp := ((hmem w.1).mp hw1).2
          rw [beq_eq_false_iff_ne]
          intro hcontra
          apply hnp
          rw [← hcontra]
          exact hpop
        rw [List.find?_cons]
        simp only [hne, if_false]
        exact hfind w hwmem
    | false =>
      simp only [Bool.false_eq_true, if_false] at heval
      obtain ⟨v, hv⟩ := Option.isSome_iff_exists.mp
        (hval pi (List.mem_cons_self pi rest))
      rw [hv] at heval
      simp only [Option.some_bind] at heval
      set st1 : UsdDracoImportAttribute.PVWOState V :=
        { values := st.values.set (s pi) v
          populated := st.populated.set (s pi) true
          writes := st.writes ++ [(s pi, pi)] } with hst1
      have hlen1 : st1.populated.length = pa.size := by
        rw [hst1]
        simpa [List.length_set] using hlen
      have hloop : UsdDracoImportAttribute.pvwoLoop pa order st (pi :: rest) =
          UsdDracoImportAttribute.pvwoLoop pa order st1 rest := by
        simp only [UsdDracoImportAttribute.pvwoLoop, heval,
          Option.bind_eq_bind, Option.some_bind]
      have hpj : st1.populated[s pi]? = some true := by
        rw [hst1]
        exact List.getElem?_set_self hjlen
      have hpq : ∀ q, q ≠ s pi → st1.populated[q]? = st.populated[q]? := by
        intro q hq
        rw [hst1]
        exact List.getElem?_set_ne (fun hcontra => hq hcontra.symm)
      obtain ⟨st2, nw1, hrun, hlen2, hw, hnodup, hmem, hfind, hpopchar⟩ :=
        ih st1 hlen1 hord' hval'
      have hjnot : s pi ∉ nw1.map Prod.fst := by
        intro hin
        exact ((hmem (s pi)).mp hin).2 hpj
      refine ⟨st2, (s pi, pi) :: nw1, by rw [hloop]; exact hrun, hlen2,
        ?_, ?_, ?_, ?_, ?_⟩
      · rw [hw, hst1]
        simp [List.append_assoc]
      · simp only [List.map_cons, List.nodup_cons]
        exact ⟨hjnot, hnodup⟩
      · intro q
        by_cases hq : q = s pi
        · subst hq
          constructor
          · intro _
            refine ⟨by simp, ?_⟩
            rw [hpop]
            simp
          · intro _
            simp
        · simp only [List.map_cons, List.mem_cons]
          constructor
          · rintro (hcontra | hin)
            · exact absurd hcontra hq
            · obtain ⟨hr, hnp⟩ := (hmem q).mp hin
              rw [hpq q hq] at hnp
              exact ⟨Or.inr hr, hnp⟩
          · rintro ⟨hcontra | hr, hnp⟩
            · exact absurd hcontra hq
            · refine Or.inr ((hmem q).mpr ⟨hr, ?_⟩)
              rw [hpq q hq]
              exact hnp
      · intro w hwmem
        rcases List.mem_cons.mp hwmem with hwe | hwin
        · subst hwe
          rw [List.find?_cons]
          simp
        · have hwne : (s pi == w.1) = false := by
            rw [beq_eq_false_iff_ne]
            intro hcontra
            apply hjnot
            rw [hcontra]
            exact List.mem_map_of_mem Prod.fst hwin
          rw [List.find?_cons]
          simp only [hwne, if_false]
          exact hfind w hwin
      · intro q
        by_cases hq : q = s pi
        · constructor
          · intro _
            exact Or.inr (by simp [hq])
          · intro _
            refine (hpopchar q).mpr (Or.inl ?_)
            rw [hq]
            exact hpj
        · rw [hpopchar q, hpq q hq]
          simp only [List.map_cons, List.mem_cons]
          constructor
          · rintro (h1 | h2)
            · exact Or.inl h1
            · exact Or.inr (Or.inr h2)
          · rintro (h1 | h2 | h3)
            · exact Or.inl h1
            · exact absurd h2 hq
            · exact Or.inr h3

/-- Claim C3: for a present codec attribute, PopulateValuesWithOrder —
assuming every mapped order value over the walked corners is a valid slot
in [0, number of attribute values) — writes each original slot index that
occurs among the corners' order values exactly once, at its first
occurrence in face-then-corner iteration order, and writes no slot
twice. -/
theorem populateValuesWithOrder_writes_once {V : Type} [Inhabited V]
    (a : UsdDracoImportAttribute V) (order : UsdDracoImportAttribute Int)
    (numFaces : Nat) (m : Mesh V) (pa : PointAttribute V)
    (corners : List Nat) (s : Nat → Nat)
    (hpa : a.pointAttribute = some pa)
    (hcorners : m.corners numFaces = some corners)
    (hord : ∀ pi ∈ corners, order.GetMappedValue pi = some (Int.ofNat (s pi)) ∧
      s pi < pa.size)
    (hval : ∀ pi ∈ corners, (pa.GetMappedValue pi).isSome = true) :
    ∃ a2 writes,
      a.PopulateValuesWithOrder order numFaces m = some (a2, writes) ∧
      (writes.map Prod.fst).Nodup ∧
      (∀ j, j ∈ writes.map Prod.fst ↔ j ∈ corners.map s) ∧
      (∀ w ∈ writes, corners.find? (fun pi => s pi == w.1) = some w.2) := by
  have hrep : ∀ i : Nat, ¬ ((List.replicate pa.size false)[i]? = some true) := by
    intro i hcontra
    by_cases hi : i < pa.size
    · rw [List.getElem?_replicate_of_lt hi] at hcontra
      simp at hcontra
    · rw [List.getElem?_eq_none
        (by simpa using Nat.le_of_not_lt hi)] at hcontra
      simp at hcontra
  obtain ⟨st2, nw, hrun, _, hw, hnodup, hmem, hfind, _⟩ :=
    pvwoLoop_writes pa order s corners
      { values := listResize a.values pa.size
        populated := List.replicate pa.size false
        writes := [] }
      (by simp) hord hval
  refine ⟨{ a with values := st2.values }, nw, ?_, hnodup, ?_, hfind⟩
  · simp only [UsdDracoImportAttribute.PopulateValuesWithOrder, hpa,
      Option.bind_eq_bind]
    rw [hcorners]
    simp only [Option.some_bind]
    rw [hrun]
    simp only [Option.some_bind]
    rw [hw, List.nil_append]
  · intro j
    constructor
    · intro hj
      exact ((hmem j).mp hj).1
    · intro hj
      exact (hmem j).mpr ⟨hj, hrep j⟩

/-- Witness: populateValuesWithOrder_writes_once on a one-triangle mesh
whose order attribute maps points 0, 1, 2 to original slots 0, 1, 0. -/
theorem populateValuesWithOrder_writes_once_witness :
    ∃ a2 writes,
      aC3.PopulateValuesWithOrder ordC3 1 mC3 = some (a2, writes) ∧
      (writes.map Prod.fst).Nodup ∧
      (∀ j, j ∈ writes.map Prod.fst ↔ j ∈ ([0, 1, 2] : List Nat).map sC3) ∧
      (∀ w ∈ writes,
        ([0, 1, 2] : List Nat).find? (fun pi => sC3 pi == w.1) = some w.2) :=
  populateValuesWithOrder_writes_once aC3 ordC3 1 mC3 paC3 [0, 1, 2] sC3
    rfl rfl (by decide) (by decide)

/-- Witness: metadata_roundtrip applied to two generic attributes tagged
"u" and "v" exported into an empty Draco mesh. -/
theorem metadata_roundtrip_witness :
    ∃ pa1 pa2,
      (aC5b.SetToMesh (aC5a.SetToMesh mC5).2).2.attributes[
        mC5.attributes.length]? = some pa1 ∧
      (aC5b.SetToMesh (aC5a.SetToMesh mC5).2).2.attributes[
        mC5.attributes.length + 1]? = some pa2 ∧
      (mC5.attributes.length,
        [(METADATA_NAME_KEY, aC5a.descriptor.metadataName)]) ∈
        (aC5b.SetToMesh (aC5a.SetToMesh mC5).2).2.attributeMetadata ∧
      (mC5.attributes.length + 1,
        [(METADATA_NAME_KEY, aC5b.descriptor.metadataName)]) ∈
        (aC5b.SetToMesh (aC5a.SetToMesh mC5).2).2.attributeMetadata ∧
      UsdDracoImportAttribute._GetFromMesh aC5a.descriptor
        (aC5b.SetToMesh (aC5a.SetToMesh mC5).2).2 = some pa1 ∧
      UsdDracoImportAttribute._GetFromMesh aC5b.descriptor
        (aC5b.SetToMesh (aC5a.SetToMesh mC5).2).2 = some pa2 ∧
      pa1.values = aC5a.values ∧ pa2.values = aC5b.values :=
  metadata_roundtrip aC5a aC5b mC5 rfl rfl (by decide) rfl rfl rfl rfl

end UsdDraco
